import Mathlib

/-!
Pod routes of the API server (pkg/api/server/register_pods.go)

The file embeds `registerPodsHandlers`: the twelve `r.Handle(...).Methods(...)`
registrations in source order, and the swagger operation documented directly
above each of them (method, path, operation id, parameters, declared responses).

The pod handlers themselves (`libpod.PodStart`, ...) and the pod lifecycle core
behind them are not part of this source file; where a statement needs them they
are modelled from the design document, in the second half of the definitions.
-/

set_option autoImplicit false

namespace Libpod

/-! Route table -/

/-- The method constants of net/http. -/
inductive Method where
  | GET | HEAD | POST | PUT | PATCH | DELETE | CONNECT | OPTIONS | TRACE
  deriving DecidableEq, Repr

/-- The handler functions of package `libpod` that the registrations refer to. -/
inductive Handler where
  | Pods | PodCreate | PodPrune | PodDelete | PodInspect | PodExists
  | PodKill | PodPause | PodRestart | PodStart | PodStop | PodUnpause
  deriving DecidableEq, Repr

/-- A route as built by `r.Handle(path, handler).Methods(methods...)`.
`path` is the argument handed to `VersionedPath`. -/
structure Route where
  path : String
  handler : Handler
  methods : List Method
  deriving DecidableEq, Repr

/-- The router: its routes in registration order. -/
abbrev Router := List Route

/-- The call `r.Handle(VersionedPath(path), s.APIHandler(h)).Methods(ms...)`: one new route
at the end of the router. -/
def Router.Handle (r : Router) (path : String) (h : Handler) (ms : List Method) : Router :=
  r ++ [{ path := path, handler := h, methods := ms }]

/-- The function `registerPodsHandlers`: twelve registrations, then `return nil`. -/
def registerPodsHandlers (r : Router) : Except String Router :=
  let r := r.Handle "/libpod/pods/json" Handler.Pods [Method.GET]
  let r := r.Handle "/libpod/pods/create" Handler.PodCreate [Method.POST]
  let r := r.Handle "/libpod/pods/prune" Handler.PodPrune [Method.POST]
  let r := r.Handle "/libpod/pods/{name}" Handler.PodDelete [Method.DELETE]
  let r := r.Handle "/libpod/pods/{name}/json" Handler.PodInspect [Method.GET]
  let r := r.Handle "/libpod/pods/{name}/exists" Handler.PodExists [Method.GET]
  let r := r.Handle "/libpod/pods/{name}/kill" Handler.PodKill [Method.POST]
  let r := r.Handle "/libpod/pods/{name}/pause" Handler.PodPause [Method.POST]
  let r := r.Handle "/libpod/pods/{name}/restart" Handler.PodRestart [Method.POST]
  let r := r.Handle "/libpod/pods/{name}/start" Handler.PodStart [Method.POST]
  let r := r.Handle "/libpod/pods/{name}/stop" Handler.PodStop [Method.POST]
  let r := r.Handle "/libpod/pods/{name}/unpause" Handler.PodUnpause [Method.POST]
  Except.ok r

/-- The routes `registerPodsHandlers` leaves in a fresh router. -/
def podRoutes : List Route :=
  match registerPodsHandlers [] with
  | Except.ok r => r
  | Except.error _ => []

/-! Swagger annotations -/

/-- What a declared response carries: a reference or an inline description. -/
inductive ResponseBody where
  | ref (target : String)
  | description (text : String)
  deriving DecidableEq, Repr

/-- One entry of a `responses:` block. -/
structure Response where
  code : Nat
  body : ResponseBody
  deriving DecidableEq, Repr

/-- Where a declared parameter is taken from. -/
inductive ParamIn where
  | query | path | body
  deriving DecidableEq, Repr

/-- One entry of a `parameters:` block. -/
structure Param where
  loc : ParamIn
  name : String
  required : Bool
  deriving DecidableEq, Repr

/-- A `swagger:operation METHOD path tag id` annotation. -/
structure SwaggerOperation where
  method : Method
  path : String
  tag : String
  operationId : String
  params : List Param
  responses : List Response
  deriving DecidableEq, Repr

def badParam : Response := ⟨400, ResponseBody.ref "#/responses/BadParamError"⟩
def noSuchPod : Response := ⟨404, ResponseBody.ref "#/responses/NoSuchPod"⟩
def conflictError : Response := ⟨409, ResponseBody.ref "#/responses/ConflictError"⟩
def internalError : Response := ⟨500, ResponseBody.ref "#/responses/InternalError"⟩
def noError : Response := ⟨204, ResponseBody.description "no error"⟩
def nameParam : Param := ⟨ParamIn.path, "name", true⟩

/-- The twelve swagger annotations of `registerPodsHandlers`, in source order. -/
def podOperations : List SwaggerOperation :=
  [ { method := Method.GET, path := "/libpod/pods/json", tag := "pods", operationId := "ListPods",
      params := [⟨ParamIn.query, "filters", false⟩],
      responses := [⟨200, ResponseBody.ref "#/responses/ListPodsResponse"⟩, badParam, internalError] },
    { method := Method.POST, path := "/libpod/pods/create", tag := "pods", operationId := "CreatePod",
      params := [⟨ParamIn.body, "create", false⟩],
      responses := [⟨200, ResponseBody.ref "#/definitions/IdResponse"⟩, badParam, internalError] },
    { method := Method.POST, path := "/libpod/pods/prune", tag := "pods", operationId := "PrunePods",
      params := [],
      responses := [⟨200, ResponseBody.description "tbd"⟩, badParam,
                    ⟨409, ResponseBody.description "pod already exists"⟩, internalError] },
    { method := Method.DELETE, path := "/libpod/pods/{name}", tag := "pods", operationId := "removePod",
      params := [nameParam, ⟨ParamIn.query, "force", false⟩],
      responses := [noError, badParam, noSuchPod, internalError] },
    { method := Method.GET, path := "/libpod/pods/{name}/json", tag := "pods", operationId := "inspectPod",
      params := [nameParam],
      responses := [⟨200, ResponseBody.ref "#/responses/InspectPodResponse"⟩, noSuchPod, internalError] },
    { method := Method.GET, path := "/libpod/pods/{name}/exists", tag := "pods", operationId := "podExists",
      params := [nameParam],
      responses := [⟨204, ResponseBody.description "pod exists"⟩, noSuchPod, internalError] },
    { method := Method.POST, path := "/libpod/pods/{name}/kill", tag := "pods", operationId := "killPod",
      params := [nameParam, ⟨ParamIn.query, "signal", false⟩],
      responses := [noError, badParam, noSuchPod, conflictError, internalError] },
    { method := Method.POST, path := "/libpod/pods/{name}/pause", tag := "pods", operationId := "pausePod",
      params := [nameParam],
      responses := [noError, noSuchPod, internalError] },
    { method := Method.POST, path := "/libpod/pods/{name}/restart", tag := "pods", operationId := "restartPod",
      params := [nameParam],
      responses := [noError, noSuchPod, internalError] },
    { method := Method.POST, path := "/libpod/pods/{name}/start", tag := "pods", operationId := "startPod",
      params := [nameParam],
      responses := [noError, ⟨304, ResponseBody.ref "#/responses/PodAlreadyStartedError"⟩, noSuchPod,
                    internalError] },
    { method := Method.POST, path := "/libpod/pods/{name}/stop", tag := "pods", operationId := "stopPod",
      params := [nameParam, ⟨ParamIn.query, "t", false⟩],
      responses := [noError, ⟨304, ResponseBody.ref "#/responses/PodAlreadyStoppedError"⟩, badParam,
                    noSuchPod, internalError] },
    { method := Method.POST, path := "/libpod/pods/{name}/unpause", tag := "pods", operationId := "unpausePod",
      params := [nameParam],
      responses := [noError, noSuchPod, internalError] } ]

/-- The swagger operation that documents a route: the one with the route's path and one of
its methods. -/
def Route.operation (r : Route) : Option SwaggerOperation :=
  podOperations.find? (fun o => o.path == r.path && r.methods.contains o.method)

/-- The declared response set of a route. -/
def Route.responses (r : Route) : List Response :=
  match r.operation with
  | some o => o.responses
  | none => []

/-- The declared status codes of a route. -/
def Route.codes (r : Route) : List Nat :=
  r.responses.map Response.code

/-- The route bound to a handler, if one is registered. -/
def routeOf (h : Handler) : Option Route :=
  podRoutes.find? (fun r => r.handler == h)

/-- The declared response set of the route bound to a handler. -/
def responsesOf (h : Handler) : List Response :=
  match routeOf h with
  | some r => r.responses
  | none => []

/-- The declared status codes of the route bound to a handler. -/
def codesOf (h : Handler) : List Nat :=
  (responsesOf h).map Response.code

/-! Path templates and matching -/

/-- Cuts a character list at every slash; `cur` holds the segment being read, reversed. -/
def splitSlash : List Char → List Char → List String
  | cur, [] => [String.mk cur.reverse]
  | cur, c :: cs =>
    if c = '/' then String.mk cur.reverse :: splitSlash [] cs
    else splitSlash (c :: cur) cs

/-- The segments of a path: the pieces after each slash; `none` for a path that does not
start with a slash. -/
def segments (p : String) : Option (List String) :=
  match p.data with
  | '/' :: cs => some (splitSlash [] cs)
  | _ => none

/-- A segment of a route template. -/
inductive Seg where
  | lit (s : String)
  | var (name : String)
  deriving DecidableEq, Repr

/-- Reads a template segment: `{name}` is a variable, anything else a literal. -/
def Seg.parse (s : String) : Seg :=
  match s.data with
  | '{' :: rest =>
    if rest.getLast? = some '}' then Seg.var (String.mk rest.dropLast) else Seg.lit s
  | _ => Seg.lit s

/-- The segments of a route template. -/
def parseTemplate (p : String) : List Seg :=
  ((segments p).getD []).map Seg.parse

/-- Whether a template segment accepts a request segment: a literal accepts itself, a
variable accepts any non-empty segment without a slash. -/
def Seg.accepts : Seg → String → Bool
  | Seg.lit s, x => x == s
  | Seg.var _, x => x != "" && !x.data.contains '/'

/-- Matches a list of segment acceptors against request segments, one to one. -/
def matchSegs : List (String → Bool) → List String → Bool
  | [], [] => true
  | f :: fs, x :: xs => f x && matchSegs fs xs
  | _, _ => false

/-- Whether a route matches a request. `ver` stands for what `VersionedPath` puts in front
of every pattern: one acceptor per leading segment. -/
def Route.matches (ver : List (String → Bool)) (r : Route) (m : Method) (p : String) : Bool :=
  r.methods.contains m &&
    match segments p with
    | some xs => matchSegs (ver ++ (parseTemplate r.path).map Seg.accepts) xs
    | none => false

/-- The routes of the table that match a request. -/
def matching (ver : List (String → Bool)) (m : Method) (p : String) : List Route :=
  podRoutes.filter (fun r => r.matches ver m p)

/-! Pod lifecycle core

The handlers bound above call into the pod lifecycle core (state machine and group
operation coordinator). That code is not in `register_pods.go`; the definitions of this
section follow the design document.
-/

/-- Modelled from the spec: the member states the aggregate rule of section 4.2 names
(running, stopped, exited, paused); the container runtime that owns them is not part of
the source file. -/
inductive MemberState where
  | running | paused | stopped | exited
  deriving DecidableEq, Repr

/-- Modelled from the spec: the pod lifecycle state enumeration of section 3; the pod type
is not part of the source file. -/
inductive PodState where
  | Created | Running | Paused | Stopped | Degraded | Removed
  deriving DecidableEq, Repr

/-- Modelled from the spec: the outcome tags of sections 3 and 6; the result type is not
part of the source file. A partial failure carries its (member ID, error) pairs. -/
inductive Outcome where
  | Success | NoOp | Conflict | NotFound
  | PartialFailure (errors : List (Nat × String))
  | BadParameter | Fatal
  deriving DecidableEq, Repr

/-- Modelled from the spec: the boundary table of section 6, with the HTTP status of each
meaning ("not modified" 304, "no such pod" 404, "conflicting state" 409, malformed input
400, internal error 500); the dispatch layer that applies it is not part of the source
file. Success and partial failure are reported in the success class. -/
def Outcome.status : Outcome → Option Nat
  | Outcome.Success => none
  | Outcome.PartialFailure _ => none
  | Outcome.NoOp => some 304
  | Outcome.NotFound => some 404
  | Outcome.Conflict => some 409
  | Outcome.BadParameter => some 400
  | Outcome.Fatal => some 500

/-- Modelled from the spec: a member container reference with its current state. -/
structure Member where
  id : Nat
  state : MemberState
  deriving DecidableEq, Repr

/-- Modelled from the spec: a pod of section 3 (identity, ordered members, current state). -/
structure Pod where
  name : String
  id : String
  members : List Member
  state : PodState
  deriving DecidableEq, Repr

/-- Modelled from the spec: "all members running" of the aggregate rule (section 4.2). -/
def allRunning (ms : List MemberState) : Bool :=
  ms.all (fun s => s == MemberState.running)

/-- Modelled from the spec: "all members stopped/exited" of the aggregate rule (section
4.2). -/
def allStopped (ms : List MemberState) : Bool :=
  ms.all (fun s => s == MemberState.stopped || s == MemberState.exited)

/-- Modelled from the spec: "all members paused" of the aggregate rule (section 4.2). -/
def allPaused (ms : List MemberState) : Bool :=
  ms.all (fun s => s == MemberState.paused)

/-- Modelled from the spec: the aggregate rule of section 4.2, its four cases read in the
order they are written; the state machine is not part of the source file. -/
def aggregateState (ms : List MemberState) : PodState :=
  if allRunning ms then PodState.Running
  else if allStopped ms then PodState.Stopped
  else if allPaused ms then PodState.Paused
  else PodState.Degraded

/-- Modelled from the spec: the group operations of section 4.2 that act member by member.
Signal and grace period are forwarded to the runtime adapter and belong to it here. -/
inductive GroupOp where
  | start | stop | pause | unpause | kill
  deriving DecidableEq, Repr

/-- Modelled from the spec: the decision of the state machine (section 4.2, last item). -/
inductive Decision where
  | proceed
  | shortCircuit (result : Outcome)
  deriving DecidableEq, Repr

/-- Modelled from the spec: the transition legality table of section 4.2 for the
member-wise operations; the state machine is not part of the source file. -/
def validateOp (op : GroupOp) (ms : List MemberState) : Decision :=
  match op with
  | GroupOp.start =>
    if aggregateState ms = PodState.Running then Decision.shortCircuit Outcome.NoOp
    else Decision.proceed
  | GroupOp.stop =>
    if aggregateState ms = PodState.Stopped then Decision.shortCircuit Outcome.NoOp
    else Decision.proceed
  | GroupOp.pause =>
    if ms.any (fun s => s == MemberState.running) then Decision.proceed
    else Decision.shortCircuit Outcome.NoOp
  | GroupOp.unpause =>
    if ms.any (fun s => s == MemberState.paused) then Decision.proceed
    else Decision.shortCircuit Outcome.NoOp
  | GroupOp.kill => Decision.proceed

/-- Modelled from the spec: the legality of remove (sections 4.2 and 8): without the force
flag, a pod with a running member is refused with Conflict; the state machine is not part
of the source file. -/
def validateRemove (force : Bool) (ms : List MemberState) : Decision :=
  if !force && ms.any (fun s => s == MemberState.running) then
    Decision.shortCircuit Outcome.Conflict
  else Decision.proceed

/-- Modelled from the spec: the member state a successful member operation reaches (killed
members count as stopped, section 9). -/
def GroupOp.target : GroupOp → MemberState
  | GroupOp.start => MemberState.running
  | GroupOp.stop => MemberState.stopped
  | GroupOp.pause => MemberState.paused
  | GroupOp.unpause => MemberState.running
  | GroupOp.kill => MemberState.stopped

/-- Modelled from the spec: one member operation through the runtime adapter `run`
(`none` is success, `some e` a typed failure). A failed operation leaves the member as it
was and yields its (member ID, error) entry. -/
def applyMember (run : Nat → Option String) (target : MemberState) (m : Member) :
    Member × Option (Nat × String) :=
  match run m.id with
  | none => ({ m with state := target }, none)
  | some e => (m, some (m.id, e))

/-- Modelled from the spec: the aggregation policy of section 4.3 over the per-member
results: Success when no member failed, PartialFailure with every failure when some
member succeeded, Fatal when every member failed. -/
def aggregate (n : Nat) (errors : List (Nat × String)) : Outcome :=
  if errors.isEmpty then Outcome.Success
  else if errors.length < n then Outcome.PartialFailure errors
  else Outcome.Fatal

/-- Modelled from the spec: the group operation coordinator of section 4.3: the operation
on every member in order, the members as they actually are afterwards, and the aggregated
outcome; the coordinator is not part of the source file. -/
def execute (run : GroupOp → Nat → Option String) (op : GroupOp) (ms : List Member) :
    List Member × Outcome :=
  let rs := ms.map (applyMember (run op) op.target)
  (rs.map Prod.fst, aggregate ms.length (rs.filterMap Prod.snd))

/-- Modelled from the spec: the control flow of section 2 for one member-wise command on a
resolved pod: validate, execute, commit the recomputed aggregate state. -/
def Pod.apply (run : GroupOp → Nat → Option String) (op : GroupOp) (p : Pod) : Pod × Outcome :=
  match validateOp op (p.members.map Member.state) with
  | Decision.shortCircuit r => (p, r)
  | Decision.proceed =>
    let res := execute run op p.members
    ({ p with members := res.1, state := aggregateState (res.1.map Member.state) }, res.2)

/-- The aggregate rule as a property of a candidate aggregate function `f` at a member
list: Running iff all running, Stopped iff all stopped or exited, Paused iff all paused,
Degraded iff none of the three. -/
def AggregateRule (f : List MemberState → PodState) (ms : List MemberState) : Prop :=
  (f ms = PodState.Running ↔ ∀ s ∈ ms, s = MemberState.running) ∧
  (f ms = PodState.Stopped ↔ ∀ s ∈ ms, s = MemberState.stopped ∨ s = MemberState.exited) ∧
  (f ms = PodState.Paused ↔ ∀ s ∈ ms, s = MemberState.paused) ∧
  (f ms = PodState.Degraded ↔
    ¬ (∀ s ∈ ms, s = MemberState.running) ∧
    ¬ (∀ s ∈ ms, s = MemberState.stopped ∨ s = MemberState.exited) ∧
    ¬ (∀ s ∈ ms, s = MemberState.paused))

/-- Modelled from the spec: whether the runtime adapter returns a typed failure on a
member (section 2). -/
def failsOn (run : Nat → Option String) (m : Member) : Bool :=
  (run m.id).isSome

/-- Modelled from the spec: the (member ID, error) pairs of section 4.3, one for each
member the runtime adapter fails on, in member order. -/
def failures (run : Nat → Option String) (ms : List Member) : List (Nat × String) :=
  ms.filterMap (fun m => (run m.id).map (fun e => (m.id, e)))

/-- Modelled from the spec: restart in the coordinator (section 4.3): the stop-plan, then
the start-plan over the same member ordering. A member whose stop failed is not started;
the members whose stop succeeded proceed to start. The whole operation is Fatal when the
stop phase fails on a member; otherwise the start results are aggregated as usual. -/
def restart (run : GroupOp → Nat → Option String) (ms : List Member) : List Member × Outcome :=
  let stopPhase := ms.map (applyMember (run GroupOp.stop) GroupOp.stop.target)
  let startPhase := stopPhase.map (fun r =>
    match r.2 with
    | some _ => (r.1, none)
    | none => applyMember (run GroupOp.start) GroupOp.start.target r.1)
  (startPhase.map Prod.fst,
    if (stopPhase.filterMap Prod.snd).isEmpty then
      aggregate ms.length (startPhase.filterMap Prod.snd)
    else Outcome.Fatal)

/-- Modelled from the spec: restart on a resolved pod: the transition table of section 4.2
gives restart no precondition, so the plan is executed and the recomputed aggregate state
committed. -/
def Pod.restart (run : GroupOp → Nat → Option String) (p : Pod) : Pod × Outcome :=
  let res := Libpod.restart run p.members
  ({ p with members := res.1, state := aggregateState (res.1.map Member.state) }, res.2)

/-- Modelled from the spec: the pod once a remove has completed (section 3): the terminal
state Removed, all membership references released. -/
def Pod.removed (p : Pod) : Pod :=
  { p with members := [], state := PodState.Removed }

/-- Two running members and a third that is already stopped, with IDs 1, 2, 3. -/
def mixedMembers : List Member :=
  [⟨1, MemberState.running⟩, ⟨2, MemberState.running⟩, ⟨3, MemberState.stopped⟩]

/-- A runtime adapter that succeeds everywhere. -/
def runOk : GroupOp → Nat → Option String :=
  fun _ _ => none

/-- A runtime adapter that times out on member 3 and succeeds elsewhere. -/
def runFail3 : GroupOp → Nat → Option String :=
  fun _ i => if i = 3 then some "timeout" else none

/-- Three members in the same state, with IDs 1, 2, 3. -/
def threeMembers (st : MemberState) : List Member :=
  [⟨1, st⟩, ⟨2, st⟩, ⟨3, st⟩]

/-- A pod of three members in the same state, its state the aggregate of theirs. -/
def threePod (st : MemberState) : Pod :=
  { name := "web", id := "0a1b", members := threeMembers st,
    state := aggregateState [st, st, st] }

/-- The pattern table: methods and parsed template of every registered route. -/
def podPatterns : List (List Method × List Seg) :=
  podRoutes.map (fun r => (r.methods, parseTemplate r.path))

/-- Whether an entry of the pattern table matches a method and the request segments. -/
def patternMatches (m : Method) (xs : List String) (e : List Method × List Seg) : Bool :=
  e.1.contains m && matchSegs (e.2.map Seg.accepts) xs

theorem podPatterns_eq : podPatterns =
    [ ([Method.GET], [Seg.lit "libpod", Seg.lit "pods", Seg.lit "json"]),
      ([Method.POST], [Seg.lit "libpod", Seg.lit "pods", Seg.lit "create"]),
      ([Method.POST], [Seg.lit "libpod", Seg.lit "pods", Seg.lit "prune"]),
      ([Method.DELETE], [Seg.lit "libpod", Seg.lit "pods", Seg.var "name"]),
      ([Method.GET], [Seg.lit "libpod", Seg.lit "pods", Seg.var "name", Seg.lit "json"]),
      ([Method.GET], [Seg.lit "libpod", Seg.lit "pods", Seg.var "name", Seg.lit "exists"]),
      ([Method.POST], [Seg.lit "libpod", Seg.lit "pods", Seg.var "name", Seg.lit "kill"]),
      ([Method.POST], [Seg.lit "libpod", Seg.lit "pods", Seg.var "name", Seg.lit "pause"]),
      ([Method.POST], [Seg.lit "libpod", Seg.lit "pods", Seg.var "name", Seg.lit "restart"]),
      ([Method.POST], [Seg.lit "libpod", Seg.lit "pods", Seg.var "name", Seg.lit "start"]),
      ([Method.POST], [Seg.lit "libpod", Seg.lit "pods", Seg.var "name", Seg.lit "stop"]),
      ([Method.POST], [Seg.lit "libpod", Seg.lit "pods", Seg.var "name", Seg.lit "unpause"]) ] := by
  decide

theorem matchSegs_append (a b : List (String → Bool)) (xs : List String) :
    matchSegs (a ++ b) xs = (matchSegs a (xs.take a.length) && matchSegs b (xs.drop a.length)) := by
  induction a generalizing xs with
  | nil => cases xs <;> simp [matchSegs]
  | cons f fs ih =>
    cases xs with
    | nil => simp [matchSegs]
    | cons x xs => simp [matchSegs, ih, Bool.and_assoc]

theorem patterns_unambiguous (m : Method) (xs : List String) :
    podPatterns.countP (patternMatches m xs) ≤ 1 := by
  rw [podPatterns_eq]
  rcases xs with _ | ⟨a, _ | ⟨b, _ | ⟨c, _ | ⟨d, _ | ⟨e, tl⟩⟩⟩⟩⟩ <;>
    cases m <;>
    simp [List.countP_cons, patternMatches, matchSegs, Seg.accepts] <;>
    split_ifs <;> simp_all

theorem podRoutes_eq : podRoutes =
    [ ⟨"/libpod/pods/json", Handler.Pods, [Method.GET]⟩,
      ⟨"/libpod/pods/create", Handler.PodCreate, [Method.POST]⟩,
      ⟨"/libpod/pods/prune", Handler.PodPrune, [Method.POST]⟩,
      ⟨"/libpod/pods/{name}", Handler.PodDelete, [Method.DELETE]⟩,
      ⟨"/libpod/pods/{name}/json", Handler.PodInspect, [Method.GET]⟩,
      ⟨"/libpod/pods/{name}/exists", Handler.PodExists, [Method.GET]⟩,
      ⟨"/libpod/pods/{name}/kill", Handler.PodKill, [Method.POST]⟩,
      ⟨"/libpod/pods/{name}/pause", Handler.PodPause, [Method.POST]⟩,
      ⟨"/libpod/pods/{name}/restart", Handler.PodRestart, [Method.POST]⟩,
      ⟨"/libpod/pods/{name}/start", Handler.PodStart, [Method.POST]⟩,
      ⟨"/libpod/pods/{name}/stop", Handler.PodStop, [Method.POST]⟩,
      ⟨"/libpod/pods/{name}/unpause", Handler.PodUnpause, [Method.POST]⟩ ] := by
  rfl

/-- The k-th registration is documented by the k-th swagger annotation. -/
theorem operations_document_routes :
    podRoutes.map Route.operation = podOperations.map some := by
  decide

theorem registerPodsHandlers_append (r : Router) :
    registerPodsHandlers r = Except.ok (r ++ podRoutes) := by
  rw [podRoutes_eq]
  simp [registerPodsHandlers, Router.Handle]

theorem matching_length (ver : List (String → Bool)) (m : Method) (p : String) :
    (matching ver m p).length ≤ 1 := by
  unfold matching
  rw [← List.countP_eq_length_filter]
  have hzero : (∀ r ∈ podRoutes, r.matches ver m p = false) →
      podRoutes.countP (fun r => r.matches ver m p) ≤ 1 := by
    intro h
    have h0 : podRoutes.countP (fun r => r.matches ver m p) = 0 := by
      rw [List.countP_eq_zero]
      intro r hr
      simp [h r hr]
    omega
  cases hs : segments p with
  | none =>
    apply hzero
    intro r _
    simp [Route.matches, hs]
  | some xs =>
    cases hA : matchSegs ver (xs.take ver.length) with
    | false =>
      apply hzero
      intro r _
      simp [Route.matches, hs, matchSegs_append, hA]
    | true =>
      have h1 : podRoutes.countP (fun r => r.matches ver m p)
          = podPatterns.countP (patternMatches m (xs.drop ver.length)) := by
        unfold podPatterns
        rw [List.countP_map]
        congr 1
        funext r
        simp [Route.matches, hs, matchSegs_append, hA, patternMatches]
      rw [h1]
      exact patterns_unambiguous m _

/-- Every registered route is the one match of a request on its own pattern, with and
without a version in front. -/
theorem matching_examples :
    (matching [] Method.GET "/libpod/pods/json").map Route.handler = [Handler.Pods] ∧
    (matching [] Method.POST "/libpod/pods/create").map Route.handler = [Handler.PodCreate] ∧
    (matching [] Method.POST "/libpod/pods/prune").map Route.handler = [Handler.PodPrune] ∧
    (matching [] Method.DELETE "/libpod/pods/web").map Route.handler = [Handler.PodDelete] ∧
    (matching [] Method.DELETE "/libpod/pods/json").map Route.handler = [Handler.PodDelete] ∧
    (matching [] Method.GET "/libpod/pods/web/json").map Route.handler = [Handler.PodInspect] ∧
    (matching [] Method.GET "/libpod/pods/json/json").map Route.handler = [Handler.PodInspect] ∧
    (matching [] Method.GET "/libpod/pods/web/exists").map Route.handler = [Handler.PodExists] ∧
    (matching [] Method.POST "/libpod/pods/web/kill").map Route.handler = [Handler.PodKill] ∧
    (matching [] Method.POST "/libpod/pods/web/pause").map Route.handler = [Handler.PodPause] ∧
    (matching [] Method.POST "/libpod/pods/web/restart").map Route.handler = [Handler.PodRestart] ∧
    (matching [] Method.POST "/libpod/pods/web/start").map Route.handler = [Handler.PodStart] ∧
    (matching [] Method.POST "/libpod/pods/web/stop").map Route.handler = [Handler.PodStop] ∧
    (matching [] Method.POST "/libpod/pods/web/unpause").map Route.handler = [Handler.PodUnpause] ∧
    (matching [fun s => s == "v1.24"] Method.POST "/v1.24/libpod/pods/web/stop").map Route.handler
      = [Handler.PodStop] ∧
    matching [] Method.GET "/libpod/pods/web" = [] ∧
    matching [] Method.POST "/libpod/pods//stop" = [] ∧
    matching [] Method.GET "libpod/pods/json" = [] ∧
    matching [] Method.GET "/libpod/pods/json/" = [] := by
  decide

theorem find_perm_of_filter_le_one {α : Type} (q : α → Bool) (l₁ l₂ : List α)
    (hp : l₁.Perm l₂) (h : (l₂.filter q).length ≤ 1) : l₁.find? q = l₂.find? q := by
  have hf : (l₁.filter q).Perm (l₂.filter q) := hp.filter q
  have he : l₁.filter q = l₂.filter q := by
    match hl : l₂.filter q, h with
    | [], _ => rw [hl] at hf; exact hf.eq_nil
    | [a], _ => rw [hl] at hf; exact List.perm_singleton.mp hf
  rw [← List.filter_head?, ← List.filter_head?, he]

/-- C1: `registerPodsHandlers` always succeeds and adds exactly twelve routes, in this
order: list (Pods), create, prune, remove (PodDelete), inspect, exists, kill, pause,
restart, start, stop, unpause; every handler of the package is bound by exactly one
route, the twelve handlers are pairwise distinct, and every route has exactly one
method. -/
theorem registerPodsHandlers_twelve_routes :
    (∀ r : Router, registerPodsHandlers r = Except.ok (r ++ podRoutes)) ∧
    podRoutes.length = 12 ∧
    podRoutes.map (fun r => (r.handler, r.methods, r.path)) =
      [ (Handler.Pods, [Method.GET], "/libpod/pods/json"),
        (Handler.PodCreate, [Method.POST], "/libpod/pods/create"),
        (Handler.PodPrune, [Method.POST], "/libpod/pods/prune"),
        (Handler.PodDelete, [Method.DELETE], "/libpod/pods/{name}"),
        (Handler.PodInspect, [Method.GET], "/libpod/pods/{name}/json"),
        (Handler.PodExists, [Method.GET], "/libpod/pods/{name}/exists"),
        (Handler.PodKill, [Method.POST], "/libpod/pods/{name}/kill"),
        (Handler.PodPause, [Method.POST], "/libpod/pods/{name}/pause"),
        (Handler.PodRestart, [Method.POST], "/libpod/pods/{name}/restart"),
        (Handler.PodStart, [Method.POST], "/libpod/pods/{name}/start"),
        (Handler.PodStop, [Method.POST], "/libpod/pods/{name}/stop"),
        (Handler.PodUnpause, [Method.POST], "/libpod/pods/{name}/unpause") ] ∧
    (∀ h : Handler, (podRoutes.filter (fun r => r.handler == h)).length = 1) ∧
    (podRoutes.map Route.handler).Nodup ∧
    (∀ r ∈ podRoutes, r.methods.length = 1) := by
  refine ⟨registerPodsHandlers_append, by decide, by decide, ?_, by decide, by decide⟩
  intro h
  cases h <;> decide

/-- C5: a registered route declares the "no such pod" response (404 NoSuchPod) exactly
when its path template has the `{name}` variable, which is also exactly when its swagger
annotation declares the `name` path parameter; the routes that do are remove, inspect,
exists, kill, pause, restart, start, stop and unpause, and list, create and prune declare
no 404 at all. -/
theorem noSuchPod_iff_name_in_path :
    (∀ r ∈ podRoutes, noSuchPod ∈ r.responses ↔ Seg.var "name" ∈ parseTemplate r.path) ∧
    (∀ r ∈ podRoutes, noSuchPod ∈ r.responses ↔
      ∃ o, r.operation = some o ∧ nameParam ∈ o.params) ∧
    (podRoutes.filter (fun r => decide (noSuchPod ∈ r.responses))).map Route.handler =
      [Handler.PodDelete, Handler.PodInspect, Handler.PodExists, Handler.PodKill,
       Handler.PodPause, Handler.PodRestart, Handler.PodStart, Handler.PodStop,
       Handler.PodUnpause] ∧
    404 ∉ codesOf Handler.Pods ∧ 404 ∉ codesOf Handler.PodCreate ∧
    404 ∉ codesOf Handler.PodPrune := by
  refine ⟨by decide, ?_, by decide, by decide, by decide, by decide⟩
  rw [podRoutes_eq]
  simp [Route.responses, Route.operation, podOperations, noSuchPod, nameParam, noError,
    badParam, internalError, conflictError]

/-- C7: exists and inspect are bound to GET only; exists declares exactly 204 (pod
exists), 404 NoSuchPod and 500 InternalError, inspect declares exactly 200
InspectPodResponse, 404 NoSuchPod and 500 InternalError; neither declares a not-modified
(304), conflict (409) or bad-parameter (400) outcome. -/
theorem exists_inspect_pure_reads :
    routeOf Handler.PodExists = some ⟨"/libpod/pods/{name}/exists", Handler.PodExists, [Method.GET]⟩ ∧
    routeOf Handler.PodInspect = some ⟨"/libpod/pods/{name}/json", Handler.PodInspect, [Method.GET]⟩ ∧
    responsesOf Handler.PodExists =
      [⟨204, ResponseBody.description "pod exists"⟩, noSuchPod, internalError] ∧
    responsesOf Handler.PodInspect =
      [⟨200, ResponseBody.ref "#/responses/InspectPodResponse"⟩, noSuchPod, internalError] ∧
    (∀ h ∈ [Handler.PodExists, Handler.PodInspect], ∀ c ∈ [304, 409, 400], c ∉ codesOf h) := by
  decide

/-- C10: for every request (method, path) and every prefix put in front of the patterns,
at most one registered route matches; hence the first match is the same in every
registration order; and the only route on the pattern /libpod/pods/{name} is DELETE-only
while the literal routes json, create and prune are GET or POST. -/
theorem route_table_unambiguous (ver : List (String → Bool)) (m : Method) (p : String) :
    (matching ver m p).length ≤ 1 ∧
    (∀ l : List Route, l.Perm podRoutes →
      l.find? (fun r => r.matches ver m p) = podRoutes.find? (fun r => r.matches ver m p)) ∧
    (∀ r ∈ podRoutes, r.path = "/libpod/pods/{name}" → r.methods = [Method.DELETE]) ∧
    (∀ r ∈ podRoutes, r.path ∈ ["/libpod/pods/json", "/libpod/pods/create", "/libpod/pods/prune"] →
      Method.DELETE ∉ r.methods) := by
  refine ⟨matching_length ver m p, ?_, by decide, by decide⟩
  intro l hl
  exact find_perm_of_filter_le_one _ l podRoutes hl (matching_length ver m p)

theorem route_table_unambiguous_witness :
    podRoutes.reverse.find? (fun r => r.matches [] Method.GET "/libpod/pods/web/json")
      = podRoutes.find? (fun r => r.matches [] Method.GET "/libpod/pods/web/json") :=
  (route_table_unambiguous [] Method.GET "/libpod/pods/web/json").2.1 podRoutes.reverse
    (List.reverse_perm podRoutes)

/-! The lifecycle core -/

theorem allRunning_iff (ms : List MemberState) :
    allRunning ms = true ↔ ∀ s ∈ ms, s = MemberState.running := by
  simp [allRunning]

theorem allStopped_iff (ms : List MemberState) :
    allStopped ms = true ↔ ∀ s ∈ ms, s = MemberState.stopped ∨ s = MemberState.exited := by
  simp [allStopped]

theorem allPaused_iff (ms : List MemberState) :
    allPaused ms = true ↔ ∀ s ∈ ms, s = MemberState.paused := by
  simp [allPaused]

theorem all_exclusive (s : MemberState) (tl : List MemberState) :
    ¬ (allRunning (s :: tl) = true ∧ allStopped (s :: tl) = true) ∧
    ¬ (allRunning (s :: tl) = true ∧ allPaused (s :: tl) = true) ∧
    ¬ (allStopped (s :: tl) = true ∧ allPaused (s :: tl) = true) := by
  cases s <;> simp [allRunning, allStopped, allPaused]

theorem aggregateRule_of_ne_nil (ms : List MemberState) (h : ms ≠ []) :
    AggregateRule aggregateState ms := by
  obtain ⟨s, tl, rfl⟩ := List.exists_cons_of_ne_nil h
  obtain ⟨h1, h2, h3⟩ := all_exclusive s tl
  unfold AggregateRule aggregateState
  rw [← allRunning_iff, ← allStopped_iff, ← allPaused_iff]
  cases hR : allRunning (s :: tl) <;> cases hS : allStopped (s :: tl) <;>
    cases hP : allPaused (s :: tl) <;> simp_all

theorem applyMember_fst (run : Nat → Option String) (t : MemberState) (m : Member) :
    (applyMember run t m).1 = if failsOn run m then m else { m with state := t } := by
  unfold applyMember failsOn
  cases run m.id <;> simp

theorem applyMember_snd (run : Nat → Option String) (t : MemberState) (m : Member) :
    (applyMember run t m).2 = (run m.id).map (fun e => (m.id, e)) := by
  unfold applyMember
  cases run m.id <;> simp

theorem execute_members (run : GroupOp → Nat → Option String) (op : GroupOp) (ms : List Member) :
    (execute run op ms).1 =
      ms.map (fun m => if failsOn (run op) m then m else { m with state := op.target }) := by
  simp [execute, List.map_map, Function.comp_def, applyMember_fst]

theorem execute_outcome (run : GroupOp → Nat → Option String) (op : GroupOp) (ms : List Member) :
    (execute run op ms).2 = aggregate ms.length (failures (run op) ms) := by
  simp [execute, failures, List.filterMap_map, Function.comp_def, applyMember_snd]

theorem failures_length (run : Nat → Option String) (ms : List Member) :
    (failures run ms).length = ms.countP (failsOn run) := by
  induction ms with
  | nil => rfl
  | cons m tl ih =>
    unfold failures at ih ⊢
    cases h : run m.id <;> simp [List.filterMap_cons, List.countP_cons, failsOn, h, ih]

theorem failures_eq_nil (run : Nat → Option String) (ms : List Member) :
    failures run ms = [] ↔ ∀ m ∈ ms, run m.id = none := by
  rw [← List.length_eq_zero, failures_length, List.countP_eq_zero]
  simp [failsOn]

theorem mem_failures (run : Nat → Option String) (ms : List Member) (m : Member) (e : String)
    (hm : m ∈ ms) (he : run m.id = some e) : (m.id, e) ∈ failures run ms := by
  unfold failures
  rw [List.mem_filterMap]
  exact ⟨m, hm, by simp [he]⟩

theorem aggregate_success (n : Nat) (errs : List (Nat × String)) :
    aggregate n errs = Outcome.Success ↔ errs = [] := by
  unfold aggregate
  cases errs with
  | nil => simp
  | cons e tl => simp; split_ifs <;> simp

theorem aggregate_partialFailure (n : Nat) (errs : List (Nat × String))
    (h0 : errs ≠ []) (hlt : errs.length < n) :
    aggregate n errs = Outcome.PartialFailure errs := by
  unfold aggregate
  cases errs with
  | nil => exact absurd rfl h0
  | cons e tl => simp only [List.isEmpty_cons, Bool.false_eq_true, if_false, if_pos hlt]

theorem countP_failsOn_lt (run : Nat → Option String) (ms : List Member)
    (h : ∃ m ∈ ms, run m.id = none) : ms.countP (failsOn run) < ms.length := by
  obtain ⟨m, hm, hn⟩ := h
  have hle := List.countP_le_length (failsOn run) (l := ms)
  have hne : ms.countP (failsOn run) ≠ ms.length := by
    intro he
    have := (List.countP_eq_length (p := failsOn run)).mp he m hm
    simp [failsOn, hn] at this
  omega

theorem countP_failsOn_pos (run : Nat → Option String) (ms : List Member)
    (h : ∃ m ∈ ms, run m.id ≠ none) : 1 ≤ ms.countP (failsOn run) := by
  obtain ⟨m, hm, hn⟩ := h
  have : 0 < ms.countP (failsOn run) := by
    rw [List.countP_pos_iff]
    refine ⟨m, hm, ?_⟩
    cases hr : run m.id with
    | none => exact absurd hr hn
    | some e => simp [failsOn, hr]
  omega

theorem aggregateState_degraded_of_mixed (l : List MemberState) (s : MemberState)
    (hs : s ∈ l) (hstop : MemberState.stopped ∈ l)
    (hne : s ≠ MemberState.stopped ∧ s ≠ MemberState.exited) :
    aggregateState l = PodState.Degraded := by
  have hR : allRunning l = false := by
    rw [Bool.eq_false_iff]
    intro h
    exact absurd ((allRunning_iff l).mp h _ hstop) (by decide)
  have hP : allPaused l = false := by
    rw [Bool.eq_false_iff]
    intro h
    exact absurd ((allPaused_iff l).mp h _ hstop) (by decide)
  have hS : allStopped l = false := by
    rw [Bool.eq_false_iff]
    intro h
    rcases (allStopped_iff l).mp h s hs with h1 | h1
    · exact hne.1 h1
    · exact hne.2 h1
  simp [aggregateState, hR, hP, hS]

theorem stop_mixed_degraded (run : GroupOp → Nat → Option String) (ms : List Member)
    (hok : ∃ m ∈ ms, run GroupOp.stop m.id = none)
    (hfail : ∃ m ∈ ms, run GroupOp.stop m.id ≠ none)
    (hstate : ∀ m ∈ ms, failsOn (run GroupOp.stop) m = true →
      m.state ≠ MemberState.stopped ∧ m.state ≠ MemberState.exited) :
    aggregateState ((execute run GroupOp.stop ms).1.map Member.state) = PodState.Degraded := by
  obtain ⟨m1, hm1, h1⟩ := hok
  obtain ⟨m2, hm2, h2⟩ := hfail
  have hf2 : failsOn (run GroupOp.stop) m2 = true := by
    cases hr : run GroupOp.stop m2.id with
    | none => exact absurd hr h2
    | some e => simp [failsOn, hr]
  rw [execute_members]
  apply aggregateState_degraded_of_mixed _ m2.state
  · simp only [List.map_map, List.mem_map, Function.comp]
    exact ⟨m2, hm2, by simp [hf2]⟩
  · simp only [List.map_map, List.mem_map, Function.comp]
    exact ⟨m1, hm1, by simp [failsOn, h1, GroupOp.target]⟩
  · exact hstate m2 hm2 hf2

theorem apply_of_proceed (run : GroupOp → Nat → Option String) (op : GroupOp) (p : Pod)
    (h : validateOp op (p.members.map Member.state) = Decision.proceed) :
    p.apply run op =
      ({ p with members := (execute run op p.members).1,
                state := aggregateState ((execute run op p.members).1.map Member.state) },
       (execute run op p.members).2) := by
  simp [Pod.apply, h]

theorem apply_of_shortCircuit (run : GroupOp → Nat → Option String) (op : GroupOp) (p : Pod)
    (r : Outcome) (h : validateOp op (p.members.map Member.state) = Decision.shortCircuit r) :
    p.apply run op = (p, r) := by
  simp [Pod.apply, h]

theorem stop_one_failure (run : GroupOp → Nat → Option String) (ms : List Member)
    (hlen : ms.length = 3) (hcnt : ms.countP (failsOn (run GroupOp.stop)) = 1) :
    (∃ m ∈ ms, run GroupOp.stop m.id = none) ∧ (∃ m ∈ ms, run GroupOp.stop m.id ≠ none) ∧
    ∃ entry, (execute run GroupOp.stop ms).2 = Outcome.PartialFailure [entry] := by
  have hfail : ∃ m ∈ ms, run GroupOp.stop m.id ≠ none := by
    have hpos : 0 < ms.countP (failsOn (run GroupOp.stop)) := by omega
    obtain ⟨m, hm, hf⟩ := List.countP_pos_iff.mp hpos
    refine ⟨m, hm, ?_⟩
    intro hn
    simp [failsOn, hn] at hf
  have hok : ∃ m ∈ ms, run GroupOp.stop m.id = none := by
    by_contra hcon
    push_neg at hcon
    have hall : ms.countP (failsOn (run GroupOp.stop)) = ms.length := by
      rw [List.countP_eq_length]
      intro m hm
      cases hr : run GroupOp.stop m.id with
      | none => exact absurd hr (hcon m hm)
      | some e => simp [failsOn, hr]
    omega
  refine ⟨hok, hfail, ?_⟩
  have hl : (failures (run GroupOp.stop) ms).length = 1 := by
    rw [failures_length, hcnt]
  obtain ⟨entry, he⟩ := List.length_eq_one.mp hl
  refine ⟨entry, ?_⟩
  rw [execute_outcome, ← he]
  apply aggregate_partialFailure
  · rw [he]; simp
  · omega

theorem stop_failed_on_stopped (run : GroupOp → Nat → Option String) (ms : List Member)
    (hok : ∃ m ∈ ms, run GroupOp.stop m.id = none)
    (hstate : ∀ m ∈ ms, failsOn (run GroupOp.stop) m = true →
      m.state = MemberState.stopped ∨ m.state = MemberState.exited) :
    aggregateState ((execute run GroupOp.stop ms).1.map Member.state) = PodState.Stopped := by
  obtain ⟨m1, hm1, h1⟩ := hok
  rw [execute_members]
  have hR : allRunning ((ms.map (fun m => if failsOn (run GroupOp.stop) m then m
      else { m with state := GroupOp.stop.target })).map Member.state) = false := by
    rw [Bool.eq_false_iff]
    intro h
    have hmem : MemberState.stopped ∈ (ms.map (fun m => if failsOn (run GroupOp.stop) m then m
        else { m with state := GroupOp.stop.target })).map Member.state := by
      simp only [List.map_map, List.mem_map, Function.comp]
      exact ⟨m1, hm1, by simp [failsOn, h1, GroupOp.target]⟩
    exact absurd ((allRunning_iff _).mp h _ hmem) (by decide)
  have hS : allStopped ((ms.map (fun m => if failsOn (run GroupOp.stop) m then m
      else { m with state := GroupOp.stop.target })).map Member.state) = true := by
    rw [allStopped_iff]
    intro s hs
    simp only [List.map_map, List.mem_map, Function.comp] at hs
    obtain ⟨m, hm, rfl⟩ := hs
    cases hf : failsOn (run GroupOp.stop) m with
    | true => simpa [hf] using hstate m hm hf
    | false => simp [GroupOp.target]
  unfold aggregateState
  rw [hR, hS]
  rfl

theorem restart_stop_errors (run : GroupOp → Nat → Option String) (ms : List Member) :
    (ms.map (applyMember (run GroupOp.stop) GroupOp.stop.target)).filterMap Prod.snd =
      failures (run GroupOp.stop) ms := by
  simp [failures, List.filterMap_map, Function.comp_def, applyMember_snd]

theorem restart_start_errors (run : GroupOp → Nat → Option String) (ms : List Member)
    (h : ∀ m ∈ ms, run GroupOp.stop m.id = none) :
    ((ms.map (applyMember (run GroupOp.stop) GroupOp.stop.target)).map (fun r =>
      match r.2 with
      | some _ => (r.1, none)
      | none => applyMember (run GroupOp.start) GroupOp.start.target r.1)).filterMap Prod.snd =
      failures (run GroupOp.start) ms := by
  induction ms with
  | nil => rfl
  | cons m tl ih =>
    have hm : run GroupOp.stop m.id = none := h m (List.mem_cons_self _ _)
    have htl := ih (fun x hx => h x (List.mem_cons_of_mem _ hx))
    simp only [List.map_cons, List.filterMap_cons, failures] at htl ⊢
    rw [htl]
    cases hs : run GroupOp.start m.id <;> simp [applyMember, hm, hs]

theorem restart_outcome (run : GroupOp → Nat → Option String) (ms : List Member) :
    (restart run ms).2 =
      if (failures (run GroupOp.stop) ms).isEmpty then
        aggregate ms.length
          (((ms.map (applyMember (run GroupOp.stop) GroupOp.stop.target)).map (fun r =>
            match r.2 with
            | some _ => (r.1, none)
            | none => applyMember (run GroupOp.start) GroupOp.start.target r.1)).filterMap
              Prod.snd)
      else Outcome.Fatal := by
  simp only [restart, restart_stop_errors]

theorem restart_success (run : GroupOp → Nat → Option String) (ms : List Member) :
    (restart run ms).2 = Outcome.Success ↔
      ∀ m ∈ ms, run GroupOp.stop m.id = none ∧ run GroupOp.start m.id = none := by
  rw [restart_outcome]
  constructor
  · intro h
    split_ifs at h with he
    have hstop : ∀ m ∈ ms, run GroupOp.stop m.id = none :=
      (failures_eq_nil _ ms).mp (List.isEmpty_iff.mp he)
    rw [restart_start_errors run ms hstop, aggregate_success, failures_eq_nil] at h
    exact fun m hm => ⟨hstop m hm, h m hm⟩
  · intro h
    have hstop : ∀ m ∈ ms, run GroupOp.stop m.id = none := fun m hm => (h m hm).1
    have he : (failures (run GroupOp.stop) ms).isEmpty = true :=
      List.isEmpty_iff.mpr ((failures_eq_nil _ ms).mpr hstop)
    rw [if_pos he, restart_start_errors run ms hstop, aggregate_success, failures_eq_nil]
    exact fun m hm => (h m hm).2

theorem restart_fatal (run : GroupOp → Nat → Option String) (ms : List Member)
    (h : ∃ m ∈ ms, run GroupOp.stop m.id ≠ none) : (restart run ms).2 = Outcome.Fatal := by
  rw [restart_outcome]
  have he : ¬ (failures (run GroupOp.stop) ms).isEmpty = true := by
    intro he
    obtain ⟨m, hm, hn⟩ := h
    exact hn ((failures_eq_nil _ ms).mp (List.isEmpty_iff.mp he) m hm)
  rw [if_neg he]

theorem aggregateState_ne_removed (l : List MemberState) :
    aggregateState l ≠ PodState.Removed := by
  unfold aggregateState
  split_ifs <;> simp

/-- C9, as stated, fails. A 3-member pod where stop succeeds on two members and fails on
the third, the third being already stopped, gives PartialFailure with exactly one entry
but aggregate state Stopped, not Degraded. A restart of a 3-member pod whose stop phase
succeeds on two members and fails on one is Fatal, not PartialFailure. A pod whose remove
has completed is Removed, which is not an aggregate of member states. -/
theorem aggregation_claim_fails :
    ¬ (aggregateState ((execute runFail3 GroupOp.stop mixedMembers).1.map Member.state)
        = PodState.Degraded) ∧
    (mixedMembers.length = 3 ∧
      mixedMembers.countP (failsOn (runFail3 GroupOp.stop)) = 1 ∧
      validateOp GroupOp.stop (mixedMembers.map Member.state) = Decision.proceed ∧
      (execute runFail3 GroupOp.stop mixedMembers).2 = Outcome.PartialFailure [(3, "timeout")] ∧
      aggregateState ((execute runFail3 GroupOp.stop mixedMembers).1.map Member.state)
        = PodState.Stopped) ∧
    ((threeMembers MemberState.running).countP (failsOn (runFail3 GroupOp.stop)) = 1 ∧
      (restart runFail3 (threeMembers MemberState.running)).2 = Outcome.Fatal ∧
      (restart runFail3 (threeMembers MemberState.running)).2 ≠
        Outcome.PartialFailure [(3, "timeout")]) ∧
    ((threePod MemberState.stopped).removed.state = PodState.Removed ∧
      (threePod MemberState.stopped).removed.state ≠
        aggregateState ((threePod MemberState.stopped).removed.members.map Member.state)) := by
  decide

/-- C9, amended: for each member-wise pod-level operation (start, stop, pause, unpause,
kill) the coordinator reports Success exactly when every member operation succeeds; when
at least one member succeeds and k >= 1 fail it reports PartialFailure with exactly k
(member ID, error) entries, one per failed member, none dropped; the members afterwards
are the actual ones (target state where the operation succeeded, unchanged where it
failed, no rollback) and the committed pod state is the aggregate recomputed from them.
A 3-member pod where stop fails on exactly one member gives PartialFailure with exactly
one entry; its aggregate state is Degraded when that member is not already stopped or
exited, and Stopped when it is. Restart reports Success exactly when every stop and every
start succeeds and Fatal as soon as its stop phase fails on a member, its committed state
being the recomputed aggregate as well. A pod whose remove has completed is Removed with
no members, which no aggregate of member states equals. -/
theorem group_operation_aggregation (run : GroupOp → Nat → Option String) (op : GroupOp)
    (ms : List Member) :
    ((execute run op ms).2 = Outcome.Success ↔ ∀ m ∈ ms, run op m.id = none) ∧
    ((∃ m ∈ ms, run op m.id = none) → (∃ m ∈ ms, run op m.id ≠ none) →
      (execute run op ms).2 = Outcome.PartialFailure (failures (run op) ms) ∧
      (failures (run op) ms).length = ms.countP (failsOn (run op)) ∧
      1 ≤ ms.countP (failsOn (run op)) ∧
      ∀ m ∈ ms, ∀ e, run op m.id = some e → (m.id, e) ∈ failures (run op) ms) ∧
    (execute run op ms).1 =
      ms.map (fun m => if failsOn (run op) m then m else { m with state := op.target }) ∧
    (∀ p : Pod, p.members = ms → validateOp op (ms.map Member.state) = Decision.proceed →
      (p.apply run op).2 = (execute run op ms).2 ∧
      (p.apply run op).1.members = (execute run op ms).1 ∧
      (p.apply run op).1.state = aggregateState ((execute run op ms).1.map Member.state)) ∧
    (op = GroupOp.stop → ms.length = 3 → ms.countP (failsOn (run op)) = 1 →
      (∃ entry, (execute run op ms).2 = Outcome.PartialFailure [entry]) ∧
      ((∀ m ∈ ms, failsOn (run op) m = true →
          m.state ≠ MemberState.stopped ∧ m.state ≠ MemberState.exited) →
        aggregateState ((execute run op ms).1.map Member.state) = PodState.Degraded) ∧
      ((∀ m ∈ ms, failsOn (run op) m = true →
          m.state = MemberState.stopped ∨ m.state = MemberState.exited) →
        aggregateState ((execute run op ms).1.map Member.state) = PodState.Stopped)) ∧
    ((restart run ms).2 = Outcome.Success ↔
      ∀ m ∈ ms, run GroupOp.stop m.id = none ∧ run GroupOp.start m.id = none) ∧
    ((∃ m ∈ ms, run GroupOp.stop m.id ≠ none) → (restart run ms).2 = Outcome.Fatal) ∧
    (∀ p : Pod, p.members = ms →
      (p.restart run).2 = (restart run ms).2 ∧
      (p.restart run).1.members = (restart run ms).1 ∧
      (p.restart run).1.state = aggregateState ((restart run ms).1.map Member.state)) ∧
    (∀ p : Pod, p.removed.state = PodState.Removed ∧ p.removed.members = [] ∧
      aggregateState (ms.map Member.state) ≠ PodState.Removed) := by
  refine ⟨?_, ?_, execute_members run op ms, ?_, ?_, restart_success run ms,
    restart_fatal run ms, ?_, fun p => ⟨rfl, rfl, aggregateState_ne_removed _⟩⟩
  · rw [execute_outcome, aggregate_success, failures_eq_nil]
  · intro hok hfail
    have hpos := countP_failsOn_pos (run op) ms hfail
    have hlt := countP_failsOn_lt (run op) ms hok
    refine ⟨?_, failures_length _ _, hpos, fun m hm e he => mem_failures _ _ m e hm he⟩
    rw [execute_outcome]
    apply aggregate_partialFailure
    · intro h0
      have := failures_length (run op) ms
      rw [h0] at this
      simp at this
      omega
    · rw [failures_length]
      exact hlt
  · intro p hp hv
    subst hp
    rw [apply_of_proceed run op p hv]
    exact ⟨rfl, rfl, rfl⟩
  · intro hop hlen hcnt
    subst hop
    obtain ⟨hok, hfail, hentry⟩ := stop_one_failure run ms hlen hcnt
    exact ⟨hentry, fun hstate => stop_mixed_degraded run ms hok hfail hstate,
      fun hstate => stop_failed_on_stopped run ms hok hstate⟩
  · intro p hp
    subst hp
    exact ⟨rfl, rfl, rfl⟩

theorem group_operation_aggregation_witness :
    (Outcome.PartialFailure [(3, "timeout")] =
        Outcome.PartialFailure (failures (runFail3 GroupOp.stop) (threeMembers MemberState.running)) ∧
      (execute runFail3 GroupOp.stop (threeMembers MemberState.running)).2 =
        Outcome.PartialFailure (failures (runFail3 GroupOp.stop) (threeMembers MemberState.running))) ∧
    ((∃ entry, (execute runFail3 GroupOp.stop (threeMembers MemberState.running)).2 =
        Outcome.PartialFailure [entry]) ∧
      aggregateState ((execute runFail3 GroupOp.stop (threeMembers MemberState.running)).1.map
        Member.state) = PodState.Degraded) ∧
    aggregateState ((execute runFail3 GroupOp.stop mixedMembers).1.map Member.state)
      = PodState.Stopped ∧
    ((threePod MemberState.running).apply runFail3 GroupOp.stop).1.state =
      aggregateState ((execute runFail3 GroupOp.stop (threeMembers MemberState.running)).1.map
        Member.state) ∧
    (restart runFail3 (threeMembers MemberState.running)).2 = Outcome.Fatal ∧
    ((threePod MemberState.exited).restart runOk).1.state =
      aggregateState ((restart runOk (threeMembers MemberState.exited)).1.map Member.state) :=
  ⟨⟨by decide,
    ((group_operation_aggregation runFail3 GroupOp.stop (threeMembers MemberState.running)).2.1
      (by decide) (by decide)).1⟩,
   ⟨((group_operation_aggregation runFail3 GroupOp.stop
        (threeMembers MemberState.running)).2.2.2.2.1 rfl (by decide) (by decide)).1,
    ((group_operation_aggregation runFail3 GroupOp.stop
        (threeMembers MemberState.running)).2.2.2.2.1 rfl (by decide) (by decide)).2.1
      (by decide)⟩,
   ((group_operation_aggregation runFail3 GroupOp.stop mixedMembers).2.2.2.2.1
      rfl (by decide) (by decide)).2.2 (by decide),
   ((group_operation_aggregation runFail3 GroupOp.stop (threeMembers MemberState.running)).2.2.2.1
      (threePod MemberState.running) rfl (by decide)).2.2,
   (group_operation_aggregation runFail3 GroupOp.stop
      (threeMembers MemberState.running)).2.2.2.2.2.2.1 ⟨⟨3, MemberState.running⟩, by decide, by decide⟩,
   ((group_operation_aggregation runOk GroupOp.stop
      (threeMembers MemberState.exited)).2.2.2.2.2.2.2.1 (threePod MemberState.exited) rfl).2.2⟩

theorem validateOp_shortCircuit (op : GroupOp) (ms : List MemberState) (r : Outcome)
    (h : validateOp op ms = Decision.shortCircuit r) : r = Outcome.NoOp := by
  cases op <;> simp only [validateOp] at h
  case kill => cases h
  all_goals
    split_ifs at h
    exact (Decision.shortCircuit.inj h).symm

theorem apply_success_members (run : GroupOp → Nat → Option String) (op : GroupOp)
    (p p1 : Pod) (h : p.apply run op = (p1, Outcome.Success)) :
    p1.members = p.members.map (fun m => { m with state := op.target }) := by
  cases hv : validateOp op (p.members.map Member.state) with
  | shortCircuit r =>
    have hr := validateOp_shortCircuit op _ r hv
    rw [apply_of_shortCircuit run op p r hv, hr] at h
    cases h
  | proceed =>
    rw [apply_of_proceed run op p hv] at h
    have h2 : (execute run op p.members).2 = Outcome.Success := congrArg Prod.snd h
    have h1 := congrArg (fun x => x.1.members) h
    simp only at h1
    rw [execute_outcome, aggregate_success, failures_eq_nil] at h2
    rw [← h1, execute_members]
    apply List.map_congr_left
    intro m hm
    simp [failsOn, h2 m hm]

/-- C2: in the lifecycle core, start on a pod whose aggregate state is Running and stop
on a pod whose aggregate state is Stopped yield NoOp and leave the pod as it is; NoOp is
the 304 "not modified" outcome, and the start route declares 304
PodAlreadyStartedError and the stop route declares 304 PodAlreadyStoppedError. -/
theorem start_stop_not_modified (run : GroupOp → Nat → Option String) (p : Pod) :
    (aggregateState (p.members.map Member.state) = PodState.Running →
      p.apply run GroupOp.start = (p, Outcome.NoOp)) ∧
    (aggregateState (p.members.map Member.state) = PodState.Stopped →
      p.apply run GroupOp.stop = (p, Outcome.NoOp)) ∧
    Outcome.NoOp.status = some 304 ∧
    (⟨304, ResponseBody.ref "#/responses/PodAlreadyStartedError"⟩ : Response) ∈
      responsesOf Handler.PodStart ∧
    (⟨304, ResponseBody.ref "#/responses/PodAlreadyStoppedError"⟩ : Response) ∈
      responsesOf Handler.PodStop := by
  refine ⟨?_, ?_, rfl, by decide, by decide⟩
  · intro h
    exact apply_of_shortCircuit run _ p _ (by simp [validateOp, h])
  · intro h
    exact apply_of_shortCircuit run _ p _ (by simp [validateOp, h])

theorem start_stop_not_modified_witness :
    (threePod MemberState.running).apply runOk GroupOp.start =
      (threePod MemberState.running, Outcome.NoOp) ∧
    (threePod MemberState.exited).apply runOk GroupOp.stop =
      (threePod MemberState.exited, Outcome.NoOp) :=
  ⟨(start_stop_not_modified runOk (threePod MemberState.running)).1 (by decide),
   (start_stop_not_modified runOk (threePod MemberState.exited)).2.1 (by decide)⟩

/-- C3, as stated, fails: the remove route declares no conflict (409) response. -/
theorem remove_route_conflict_undeclared :
    ¬ (∃ resp ∈ responsesOf Handler.PodDelete, resp.code = 409) := by
  decide

/-- C3, amended: in the lifecycle core, remove without the force flag on a pod with a
running member is refused with Conflict (and with the force flag it is never refused),
but the remove route DELETE /libpod/pods/{name} does not declare a conflict outcome: its
declared responses are exactly 204, 400 BadParamError, 404 NoSuchPod and 500
InternalError, without 409. -/
theorem remove_conflict_not_at_boundary (ms : List MemberState) :
    ((∃ s ∈ ms, s = MemberState.running) →
      validateRemove false ms = Decision.shortCircuit Outcome.Conflict) ∧
    validateRemove true ms = Decision.proceed ∧
    Outcome.Conflict.status = some 409 ∧
    routeOf Handler.PodDelete = some ⟨"/libpod/pods/{name}", Handler.PodDelete, [Method.DELETE]⟩ ∧
    responsesOf Handler.PodDelete = [noError, badParam, noSuchPod, internalError] ∧
    409 ∉ codesOf Handler.PodDelete := by
  refine ⟨?_, by simp [validateRemove], rfl, by decide, by decide, by decide⟩
  rintro ⟨s, hs, rfl⟩
  have : ms.any (fun s => s == MemberState.running) = true := by
    rw [List.any_eq_true]
    exact ⟨_, hs, by simp⟩
  simp [validateRemove, this]

theorem remove_conflict_not_at_boundary_witness :
    validateRemove false [MemberState.stopped, MemberState.running] =
      Decision.shortCircuit Outcome.Conflict :=
  (remove_conflict_not_at_boundary [MemberState.stopped, MemberState.running]).1
    ⟨MemberState.running, by decide, rfl⟩

/-- C4, as stated, fails: neither the pause route nor the unpause route declares a
304-class response. -/
theorem pause_unpause_no_304 :
    ¬ ((∃ resp ∈ responsesOf Handler.PodPause, resp.code = 304) ∨
       (∃ resp ∈ responsesOf Handler.PodUnpause, resp.code = 304)) := by
  decide

/-- C4, amended: in the lifecycle core, pause on a pod with no running member and unpause
on a pod with no paused member yield NoOp and leave the pod as it is, and a pause
(unpause) that yields Success is followed by NoOp when issued again; but the pause and
unpause routes do not declare NoOp: their declared responses are exactly 204, 404
NoSuchPod and 500 InternalError, without the 304 that start and stop declare. -/
theorem pause_unpause_noop_not_at_boundary (run : GroupOp → Nat → Option String) (p p1 : Pod) :
    ((∀ m ∈ p.members, m.state ≠ MemberState.running) →
      p.apply run GroupOp.pause = (p, Outcome.NoOp)) ∧
    ((∀ m ∈ p.members, m.state ≠ MemberState.paused) →
      p.apply run GroupOp.unpause = (p, Outcome.NoOp)) ∧
    (p.apply run GroupOp.pause = (p1, Outcome.Success) →
      p1.apply run GroupOp.pause = (p1, Outcome.NoOp)) ∧
    (p.apply run GroupOp.unpause = (p1, Outcome.Success) →
      p1.apply run GroupOp.unpause = (p1, Outcome.NoOp)) ∧
    responsesOf Handler.PodPause = [noError, noSuchPod, internalError] ∧
    responsesOf Handler.PodUnpause = [noError, noSuchPod, internalError] ∧
    304 ∉ codesOf Handler.PodPause ∧ 304 ∉ codesOf Handler.PodUnpause ∧
    304 ∈ codesOf Handler.PodStart ∧ 304 ∈ codesOf Handler.PodStop ∧
    (podRoutes.filter (fun r => decide (304 ∈ r.codes))).map Route.handler =
      [Handler.PodStart, Handler.PodStop] := by
  have hp : ∀ q : Pod, (∀ m ∈ q.members, m.state ≠ MemberState.running) →
      q.apply run GroupOp.pause = (q, Outcome.NoOp) := by
    intro q h
    apply apply_of_shortCircuit
    have : (q.members.map Member.state).any (fun s => s == MemberState.running) = false := by
      rw [List.any_eq_false]
      intro s hs
      obtain ⟨m, hm, rfl⟩ := List.mem_map.mp hs
      simpa using h m hm
    simp [validateOp, this]
  have hu : ∀ q : Pod, (∀ m ∈ q.members, m.state ≠ MemberState.paused) →
      q.apply run GroupOp.unpause = (q, Outcome.NoOp) := by
    intro q h
    apply apply_of_shortCircuit
    have : (q.members.map Member.state).any (fun s => s == MemberState.paused) = false := by
      rw [List.any_eq_false]
      intro s hs
      obtain ⟨m, hm, rfl⟩ := List.mem_map.mp hs
      simpa using h m hm
    simp [validateOp, this]
  refine ⟨hp p, hu p, ?_, ?_, by decide, by decide, by decide, by decide, by decide, by decide,
    by decide⟩
  · intro h
    apply hp
    rw [apply_success_members run _ p p1 h]
    intro m hm
    obtain ⟨m0, _, rfl⟩ := List.mem_map.mp hm
    simp [GroupOp.target]
  · intro h
    apply hu
    rw [apply_success_members run _ p p1 h]
    intro m hm
    obtain ⟨m0, _, rfl⟩ := List.mem_map.mp hm
    simp [GroupOp.target]

theorem pause_unpause_noop_not_at_boundary_witness :
    ((threePod MemberState.stopped).apply runOk GroupOp.pause =
        (threePod MemberState.stopped, Outcome.NoOp) ∧
      (threePod MemberState.running).apply runOk GroupOp.unpause =
        (threePod MemberState.running, Outcome.NoOp)) ∧
    ((threePod MemberState.running).apply runOk GroupOp.pause =
        (threePod MemberState.paused, Outcome.Success) ∧
      (threePod MemberState.paused).apply runOk GroupOp.pause =
        (threePod MemberState.paused, Outcome.NoOp)) ∧
    ((threePod MemberState.paused).apply runOk GroupOp.unpause =
        (threePod MemberState.running, Outcome.Success) ∧
      (threePod MemberState.running).apply runOk GroupOp.unpause =
        (threePod MemberState.running, Outcome.NoOp)) :=
  ⟨⟨(pause_unpause_noop_not_at_boundary runOk (threePod MemberState.stopped)
        (threePod MemberState.stopped)).1 (by decide),
    (pause_unpause_noop_not_at_boundary runOk (threePod MemberState.running)
        (threePod MemberState.running)).2.1 (by decide)⟩,
   ⟨by decide,
    (pause_unpause_noop_not_at_boundary runOk (threePod MemberState.running)
        (threePod MemberState.paused)).2.2.1 (by decide)⟩,
   ⟨by decide,
    (pause_unpause_noop_not_at_boundary runOk (threePod MemberState.paused)
        (threePod MemberState.running)).2.2.2.1 (by decide)⟩⟩

/-- C6, as stated, fails: the kill route declares the conflict (409 ConflictError)
response. -/
theorem kill_route_conflict_declared :
    ¬ (∀ resp ∈ responsesOf Handler.PodKill, resp.code ≠ 409) := by
  decide

/-- C6, amended: Conflict is among the declared outcomes of kill: the route
POST /libpod/pods/{name}/kill declares exactly 204, 400 BadParamError, 404 NoSuchPod, 409
ConflictError and 500 InternalError, and it is the only registered route that declares
ConflictError. -/
theorem kill_route_declares_conflict :
    routeOf Handler.PodKill = some ⟨"/libpod/pods/{name}/kill", Handler.PodKill, [Method.POST]⟩ ∧
    responsesOf Handler.PodKill = [noError, badParam, noSuchPod, conflictError, internalError] ∧
    codesOf Handler.PodKill = [204, 400, 404, 409, 500] ∧
    (podRoutes.filter (fun r => decide (conflictError ∈ r.responses))).map Route.handler =
      [Handler.PodKill] := by
  decide

/-- C8, as stated, fails at the pod with zero members: there all members are running, all
are stopped and all are paused, so no aggregate state, neither the one the rule computes
nor any other, satisfies the three equivalences together. -/
theorem aggregateRule_fails_on_empty :
    ¬ AggregateRule aggregateState [] ∧
    ∀ f : List MemberState → PodState, ¬ AggregateRule f [] := by
  have h : ∀ f : List MemberState → PodState, ¬ AggregateRule f [] := by
    intro f hf
    obtain ⟨h1, h2, _, _⟩ := hf
    have e1 : f [] = PodState.Running := h1.mpr (by simp)
    have e2 : f [] = PodState.Stopped := h2.mpr (by simp)
    rw [e1] at e2
    cases e2
  exact ⟨h aggregateState, h⟩

/-- C8, amended: the aggregate state is a function of the member states that always
yields one of Running, Stopped, Paused, Degraded; for every pod with at least one member
it is Running iff all members are running, Stopped iff all are stopped or exited, Paused
iff all are paused, and Degraded iff none of the three holds. -/
theorem aggregateState_rule (ms : List MemberState) :
    aggregateState ms ∈
      [PodState.Running, PodState.Stopped, PodState.Paused, PodState.Degraded] ∧
    (ms ≠ [] → AggregateRule aggregateState ms) := by
  refine ⟨?_, aggregateRule_of_ne_nil ms⟩
  unfold aggregateState
  split_ifs <;> simp

theorem aggregateState_rule_witness :
    AggregateRule aggregateState [MemberState.running, MemberState.exited] :=
  (aggregateState_rule [MemberState.running, MemberState.exited]).2 (by decide)

end Libpod
